import Mathlib

/-!
Verification of the NephroScan inference pipeline (`Frontend/app.py`).

The Python source is shallowly embedded: request handlers become pure Lean
functions over explicit inputs, machine floats become `ℚ`, Python `None`
becomes `Option`, and the behaviour of each loaded scikit-learn model on the
(fixed) preprocessed feature vector is passed in as data (`ModelOutcome`,
`Except String SHAPRaw`), since the pickled models are external artifacts.
-/

namespace NephroScan

/-! ### Python rounding

`round(x, n)` in Python rounds half to even ("banker's rounding").
We model it exactly on `ℚ` (float representation error is not modelled). -/

/-- Round to the nearest integer, ties going to the even integer,
matching Python's built-in `round`. -/
def roundHalfEven (x : ℚ) : ℤ :=
  if x - ⌊x⌋ = 1/2 then (if ⌊x⌋ % 2 = 0 then ⌊x⌋ else ⌊x⌋ + 1) else round x

/-- Python's `round(x, ndigits)` on rationals. -/
def pyRound (ndigits : ℕ) (x : ℚ) : ℚ :=
  (roundHalfEven (x * 10 ^ ndigits) : ℚ) / 10 ^ ndigits

/-! ### `api_predict` (app.py lines 190-258)

Per model, the handler runs
```
try:
    prediction = int(model.predict(features)[0])
    proba = model.predict_proba(features)[0]
    confidence = round(float(max(proba)) * 100, 2)
except Exception:
    prediction = 0; confidence = None
```
The behaviour of the external model object on the request's feature vector is
the input of the embedded handler: either both calls return (`ok pred proba`)
or some call in the `try` block raises (`err`). `max` of an empty `proba`
also raises inside the block, so it lands in the same `except` arm. -/

/-- Outcome of one model's `predict` / `predict_proba` calls on the request. -/
inductive ModelOutcome where
  | ok (pred : ℤ) (proba : List ℚ)
  | err
deriving DecidableEq, Repr

/-- One entry of the `predictions` dict: `prediction` and `confidence`
(the derived `label` is `if prediction == 1 then "CKD" else "Not CKD"`). -/
structure PredEntry where
  prediction : ℤ
  confidence : Option ℚ
deriving DecidableEq, Repr

/-- The `label` field of a predictions entry. -/
def predLabel (p : PredEntry) : String :=
  if p.prediction = 1 then "CKD" else "Not CKD"

/-- The `try`/`except` body of the per-model loop in `api_predict`. -/
def processModel : ModelOutcome → PredEntry
  | .err => ⟨0, none⟩
  | .ok pred proba =>
      match proba.max? with
      | none => ⟨0, none⟩          -- max([]) raises, caught by the except arm
      | some m => ⟨pred, some (pyRound 2 (m * 100))⟩

/-- The `predictions` dict, keyed by model name in load order. -/
def predictions (ms : List (String × ModelOutcome)) : List (String × PredEntry) :=
  ms.map (fun e => (e.1, processModel e.2))

/-- Embeds `ckd_votes = sum(1 for p in predictions.values() if p['prediction'] == 1)`. -/
def ckdVotes (ms : List (String × ModelOutcome)) : ℕ :=
  (predictions ms).countP (fun e => e.2.prediction == 1)

/-- Embeds `total = len(predictions)`. -/
def totalModels (ms : List (String × ModelOutcome)) : ℕ :=
  (predictions ms).length

/-- Embeds `ensemble_ckd = ckd_votes > total / 2` (true Python float division). -/
def ensembleCkd (ms : List (String × ModelOutcome)) : Bool :=
  decide ((ckdVotes ms : ℚ) > (totalModels ms : ℚ) / 2)

/-- Embeds the list `confs` of the non-None per-model confidence values. -/
def confs (ms : List (String × ModelOutcome)) : List ℚ :=
  (predictions ms).filterMap (fun e => e.2.confidence)

/-- Embeds `avg_conf = sum(confs) / len(confs) if confs else 50.0`. -/
def avgConf (ms : List (String × ModelOutcome)) : ℚ :=
  if confs ms = [] then 50 else (confs ms).sum / (confs ms).length

/-- The JSON body returned by `api_predict` (the fields the spec talks about). -/
structure PredictResponse where
  status : String
  preds : List (String × PredEntry)
  ensemble_result : String
  ensemble_confidence : ℚ
  models_agree : ℕ
deriving DecidableEq, Repr

/-- The `api_predict` handler: aggregation and response construction.
Pure in the model outcomes, hence trivially deterministic across calls. -/
def api_predict (ms : List (String × ModelOutcome)) : PredictResponse :=
  { status := "success"
    preds := predictions ms
    ensemble_result := if ensembleCkd ms then "ckd" else "no_ckd"
    ensemble_confidence := pyRound 4 (avgConf ms / 100)
    models_agree := if ensembleCkd ms then ckdVotes ms else totalModels ms - ckdVotes ms }

/-! ### Feature preprocessing (`preprocess_features`, app.py lines 116-188) -/

/-- The 24 feature names in the exact notebook CSV column order
(app.py `ALL_FEATURES`). -/
def ALL_FEATURES : List String :=
  ["age", "bp", "sg", "al", "su", "rbc", "pc", "pcc", "ba", "bgr",
   "bu", "sc", "sod", "pot", "hemo", "pcv", "wc", "rc", "htn",
   "dm", "cad", "appet", "pe", "ane"]

/-- Categorical feature names (app.py `CATEGORICAL_FEATURES`). -/
def CATEGORICAL_FEATURES : List String :=
  ["rbc", "pc", "pcc", "ba", "pcv", "wc", "rc",
   "htn", "dm", "cad", "appet", "pe", "ane"]

/-- A raw JSON form value: a string or an integer.
(`str(v)` of a JSON string is the string itself, of an int its decimal form;
request values in this app are strings or numbers.) -/
inductive FormVal where
  | vStr (s : String)
  | vInt (n : ℤ)
deriving DecidableEq, Repr

/-- Python's `str(value)` on a form value. -/
def pyStr : FormVal → String
  | .vStr s => s
  | .vInt n => toString n

/-- Python's `str.strip()`: drop whitespace from both ends.
(Defined on the character list so it evaluates inside the kernel.) -/
def pyStrip (s : String) : String :=
  ⟨((s.data.dropWhile Char.isWhitespace).reverse.dropWhile Char.isWhitespace).reverse⟩

/-- Python's `str.lower()`: ASCII case folding, which covers every token
this app compares (class names, aliases, form values). -/
def pyLower (s : String) : String :=
  ⟨s.data.map Char.toLower⟩

/-- Numeric value of an all-digit character run. -/
def digitsVal (l : List Char) : ℕ :=
  l.foldl (fun acc c => 10 * acc + (c.toNat - 48)) 0

/-- Unsigned decimal literal accepted by Python's `float`: `"5"`, `"5.25"`,
`"5."`, `".5"`. Scientific notation and inf/nan, which `float()` also
accepts, are never produced by this app's forms and are not modelled. -/
def parseUnsigned? (l : List Char) : Option ℚ :=
  match l.span (fun c => c != '.') with
  | (i, []) =>
      if i ≠ [] ∧ i.all Char.isDigit then some (digitsVal i : ℚ) else none
  | (i, _ :: f) =>
      if ¬ f.contains '.' ∧ i ++ f ≠ [] ∧ i.all Char.isDigit ∧
          f.all Char.isDigit then
        some ((digitsVal i : ℚ) + (digitsVal f : ℚ) / 10 ^ f.length)
      else none

/-- Python's `float(s)` on a string: surrounding whitespace is ignored,
an optional sign precedes the decimal literal; `none` models the
`ValueError` raise. -/
def parseFloat? (s : String) : Option ℚ :=
  match (pyStrip s).data with
  | '-' :: rest => (parseUnsigned? rest).map Neg.neg
  | '+' :: rest => parseUnsigned? rest
  | l => parseUnsigned? l

/-- Python's `float(value)` on a form value (`none` = raises). -/
def pyFloat? : FormVal → Option ℚ
  | .vStr s => parseFloat? s
  | .vInt n => some (n : ℚ)

/-- The `alias_map` of `preprocess_features`, in dict insertion order. -/
def aliasMap : List (String × List String) :=
  [("yes", ["yes", "y", "1", "true"]),
   ("no", ["no", "n", "0", "false"]),
   ("normal", ["normal", "norm"]),
   ("abnormal", ["abnormal", "abn"]),
   ("present", ["present", "yes", "1"]),
   ("notpresent", ["notpresent", "not present", "no", "0"]),
   ("good", ["good", "yes"]),
   ("poor", ["poor", "no"])]

/-- Embeds the `classes_lower` dict comprehension (each known class keyed
by its lowercase form) followed by `.get(v)`: the canonical class whose
lowercase form is `v`; on duplicate lowercase forms the last class wins,
as in a dict comprehension. -/
def classesLowerGet (classes : List String) (v : String) : Option String :=
  classes.reverse.find? (fun c => pyLower c == v)

/-- Embeds `int(le.transform([canonical])[0])`: a fitted `LabelEncoder` stores its
classes sorted and `transform` returns the index of the class in
`classes_`; we model `classes_` as the stored list and `transform` as the
position of the (present) class in it. -/
def leTransform (classes : List String) (c : String) : ℕ :=
  classes.indexOf c

/-- Embeds app.py line 133, the lookup key of the categorical arm:
`v = str(value).strip().lower() if value is not None else ''`. -/
def encodeCatKey (value : Option FormVal) : String :=
  match value with
  | none => ""
  | some fv => pyLower (pyStrip (pyStr fv))

/-- The categorical arm of `preprocess_features` (app.py lines 131-161):
case-insensitive match against the encoder's known classes, then the fixed
alias table, then the default code 0. `value = none` models a missing key
(`form_data.get` returned `None`). -/
def encodeCat (classes : List String) (value : Option FormVal) : ℕ :=
  let v := encodeCatKey value
  match classesLowerGet classes v with
  | some canonical => leTransform classes canonical
  | none =>
      match aliasMap.find? (fun p =>
          p.2.contains v && (classesLowerGet classes p.1).isSome) with
      | some p =>
          match classesLowerGet classes p.1 with
          | some cls => leTransform classes cls
          | none => 0    -- unreachable: the find? predicate checked isSome
      | none => 0

/-- The numerical arm of `preprocess_features` (app.py lines 163-171):
`None` or blank → NaN; unparsable → NaN; else `float(value)`.
`none` in the result models NaN. -/
def encodeNum (value : Option FormVal) : Option ℚ :=
  match value with
  | none => none
  | some fv => if pyStrip (pyStr fv) = "" then none else pyFloat? fv

/-- The fitted preprocessing artifacts loaded at startup: `_le_dict`
(classes per categorical column), `_knn_imputer` and `_nb_scaler` as opaque
fitted transforms over the 24-entry row (`none` = artifact file absent). -/
structure Artifacts where
  leDict : List (String × List String)
  imputer : Option (List (Option ℚ) → List (Option ℚ))
  scaler : Option (List (Option ℚ) → List (Option ℚ))

/-- The `raw_row` loop of `preprocess_features`: one encoded value per
feature of `ALL_FEATURES`, read from the form data by name via
`form_data.get(feat)`. -/
def buildRawRow (a : Artifacts) (fd : List (String × FormVal)) : List (Option ℚ) :=
  ALL_FEATURES.map (fun feat =>
    let value := fd.lookup feat
    if feat ∈ CATEGORICAL_FEATURES then
      match a.leDict.lookup feat with
      | some classes => some ((encodeCat classes value : ℕ) : ℚ)
      | none => encodeNum value
    else encodeNum value)

/-- Embeds `preprocess_features`: build the raw row, then
`if _knn_imputer is not None and np.isnan(X).any(): X = imputer.transform(X)`,
then `if _nb_scaler is not None: X = scaler.transform(X)`. -/
def preprocess_features (a : Artifacts) (fd : List (String × FormVal)) :
    List (Option ℚ) :=
  let X := buildRawRow a fd
  let X' := match a.imputer with
    | some imp => if X.any Option.isNone then imp X else X
    | none => X
  match a.scaler with
  | some sc => sc X'
  | none => X'

/-! ### `api_explain` (app.py lines 260-330) -/

/-- Explainer family sets of `api_explain`. -/
def TREE_MODELS : List String :=
  ["Random Forest", "Gradient Boosting", "Decision Tree", "CatBoost", "XGBoost"]

/-- Models handled by `shap.LinearExplainer`. -/
def LINEAR_MODELS : List String := ["Logistic Regression"]

/-- Models handled by `shap.KernelExplainer`. -/
def KERNEL_MODELS : List String := ["SVM", "K-Nearest Neighbors", "Naive Bayes"]

/-- A model name that falls in one of the three explainer families;
any other name hits the `else: continue` branch and gets no entry. -/
def hasExplainer (name : String) : Bool :=
  name ∈ TREE_MODELS || name ∈ LINEAR_MODELS || name ∈ KERNEL_MODELS

/-- The three raw shapes a `shap_values` call can return (app.py comment
"Normalise SHAP output to flat 1-D array"): a Python list of two per-class
(samples × features) arrays, a 3-D (samples × features × classes) array, or
a 2-D (samples × features) array. -/
inductive SHAPRaw where
  | classList (c0 c1 : List (List ℚ))
  | arr3 (a : List (List (List ℚ)))
  | arr2 (a : List (List ℚ))
deriving DecidableEq, Repr

/-- The branch dispatch of the normaliser (app.py lines 302-310):
`np.array(sv[1]).flatten()` for a list, `sv_arr[0, :, 1]` for 3-D
(first sample, class-1 column of every feature row), `sv_arr[0]` for 2-D.
`headD`/`getD` stand for numpy indexing, which on the well-formed shapes the
explainers produce always succeeds. -/
def selectVals : SHAPRaw → List ℚ
  | .classList _ c1 => c1.flatten
  | .arr3 a => (a.headD []).map (fun featRow => featRow.getD 1 0)
  | .arr2 a => a.headD []

/-- Embeds `vals = np.array(vals).flatten()[:len(ALL_FEATURES)]` (app.py line 312). -/
def normalizeShap (sv : SHAPRaw) : List ℚ :=
  (selectVals sv).take ALL_FEATURES.length

/-- Embeds the `shap_dict` comprehension pairing `ALL_FEATURES[i]` with
`round(float(vals[i]), 5)` for each `i` in `range(len(vals))`; `vals` has
at most 24 entries after trimming, so each index is in range. -/
def buildShapDict (vals : List ℚ) : List (String × ℚ) :=
  (List.range vals.length).map (fun i =>
    (ALL_FEATURES.getD i "", pyRound 5 (vals.getD i 0)))

/-- Comparison used by `sorted(shap_dict.items(), key=lambda x: abs(x[1]), reverse=True)`:
earlier entries have the larger absolute attribution. A stable merge sort
with this relation matches Python's stable descending sort. -/
def absGe (a b : String × ℚ) : Bool := decide (|b.2| ≤ |a.2|)

/-- The sorted explanation mapping for one model (app.py lines 314-321):
build `shap_dict` from the flat values and sort by `abs` descending. -/
def sortExplanation (vals : List ℚ) : List (String × ℚ) :=
  (buildShapDict vals).mergeSort absGe

/-- One model's entry in the `explanations` dict: a ranked attribution
mapping, or the structured error marker `{"error": str(exc)}`. -/
inductive ExplEntry where
  | ok (attribs : List (String × ℚ))
  | err (msg : String)
deriving DecidableEq, Repr

/-- The `try` body of the per-model loop: the external `shap_values` call
either returns a raw output (`Except.ok`) or raises (`Except.error msg`);
an exception anywhere in the block is caught and becomes the error marker. -/
def processEntry (e : String × Except String SHAPRaw) :
    Option (String × ExplEntry) :=
  if hasExplainer e.1 then
    some (e.1,
      match e.2 with
      | .ok sv => .ok (sortExplanation (normalizeShap sv))
      | .error msg => .err msg)
  else none

/-- The per-model loop of `api_explain`, building the `explanations` dict in
model order (models outside every family are skipped by `continue`). -/
def explainAll (ms : List (String × Except String SHAPRaw)) :
    List (String × ExplEntry) :=
  ms.foldl (fun acc e =>
    match processEntry e with
    | some r => acc ++ [r]
    | none => acc) []

/-- The JSON body returned by `api_explain`. -/
structure ExplainResponse where
  status : String
  explanations : List (String × ExplEntry)
deriving DecidableEq, Repr

/-- The `api_explain` handler (given the preprocessed features, its input is
each model's raw SHAP outcome): always returns `status: "success"`. -/
def api_explain (ms : List (String × Except String SHAPRaw)) : ExplainResponse :=
  { status := "success", explanations := explainAll ms }

/-! ### Definitions written from the spec's words, for refinement comparison -/

/-- Modelled from the spec: the registry "must catch it, log it, and exclude
that model's result from the ensemble" — the CKD vote count and total over
only the models whose predict/predict-probability calls completed. -/
def specAvailableVotes (ms : List (String × ModelOutcome)) : ℕ × ℕ :=
  let avail := ms.filter (fun e => match e.2 with | .ok _ _ => true | .err => false)
  (avail.countP (fun e => match e.2 with | .ok pred _ => pred == 1 | .err => false),
   avail.length)

/-- Modelled from the spec: the majority verdict taken over available
(non-throwing) models only. -/
def specEnsembleResult (ms : List (String × ModelOutcome)) : String :=
  if ((specAvailableVotes ms).1 : ℚ) > ((specAvailableVotes ms).2 : ℚ) / 2 then
    "ckd"
  else "no_ckd"

/-- Modelled from the spec: "the average of individual model confidences" —
the mean of the non-null per-model confidence percentages. -/
def specAvgConfidence (ms : List (String × ModelOutcome)) : ℚ :=
  (confs ms).sum / (confs ms).length

/-- Modelled from the spec: the claimed secondary lookup for the
high-cardinality columns — try the value's exact string form and, on
failure, the alternate decimal form (strip a trailing ".0", otherwise
append ".0") against the persisted code table; default code 0. -/
def specSecondaryLookupEncode (classes : List String) (v : String) : ℕ :=
  match classesLowerGet classes v with
  | some c => leTransform classes c
  | none =>
      let alt := if v.data.reverse.take 2 = ['0', '.'] then
          (⟨v.data.dropLast.dropLast⟩ : String)
        else v ++ ".0"
      match classesLowerGet classes alt with
      | some c => leTransform classes c
      | none => 0

/-! ### Helper lemmas -/

/-- The test `ckd_votes > total / 2` over ℚ matches the strict-majority test over ℕ. -/
lemma ensembleCkd_eq_true_iff (ms : List (String × ModelOutcome)) :
    ensembleCkd ms = true ↔ 2 * ckdVotes ms > totalModels ms := by
  unfold ensembleCkd
  rw [decide_eq_true_iff, gt_iff_lt, div_lt_iff₀ (by norm_num : (0:ℚ) < 2)]
  constructor
  · intro h
    have h' : totalModels ms < ckdVotes ms * 2 := by exact_mod_cast h
    omega
  · intro h
    have h' : totalModels ms < ckdVotes ms * 2 := by omega
    exact_mod_cast h'

/-! ### Claim C2 -/

/-- C2: the ensemble verdict is CKD iff strictly more than half of the
available models vote CKD, and an exact half split (even count) resolves to
"no_ckd". Available models are the loaded models the handler aggregates
(the spec's glossary: the vote is "across all successfully loaded models");
each contributes exactly one vote, `prediction == 1` counting as CKD.
`api_predict` is a pure function of the model outcomes, so the verdict is
deterministic across repeated calls on the same outcomes. -/
theorem C2_majority_tie_break (ms : List (String × ModelOutcome)) :
    ((api_predict ms).ensemble_result = "ckd" ↔ 2 * ckdVotes ms > totalModels ms) ∧
    (totalModels ms = 2 * ckdVotes ms → (api_predict ms).ensemble_result = "no_ckd") := by
  have h := ensembleCkd_eq_true_iff ms
  cases hb : ensembleCkd ms
  · have hres : (api_predict ms).ensemble_result = "no_ckd" := by
      simp [api_predict, hb]
    have hnot : ¬ 2 * ckdVotes ms > totalModels ms := by
      intro hv
      rw [h.mpr hv] at hb
      exact Bool.noConfusion hb
    exact ⟨⟨fun hc => absurd (hres.symm.trans hc) (by decide), fun hv => absurd hv hnot⟩,
      fun _ => hres⟩
  · have hres : (api_predict ms).ensemble_result = "ckd" := by
      simp [api_predict, hb]
    have hv : 2 * ckdVotes ms > totalModels ms := h.mp hb
    exact ⟨⟨fun _ => hv, fun _ => hres⟩, fun hteq => absurd hv (by omega)⟩

/-- C2 witness: two models split exactly one CKD / one not-CKD resolve to
"no_ckd". -/
theorem C2_majority_tie_break_witness :
    totalModels [("Random Forest", ModelOutcome.ok 1 [0, 1]),
        ("SVM", ModelOutcome.ok 0 [1, 0])] =
      2 * ckdVotes [("Random Forest", ModelOutcome.ok 1 [0, 1]),
        ("SVM", ModelOutcome.ok 0 [1, 0])] ∧
    (api_predict [("Random Forest", ModelOutcome.ok 1 [0, 1]),
        ("SVM", ModelOutcome.ok 0 [1, 0])]).ensemble_result = "no_ckd" := by
  have htie : totalModels [("Random Forest", ModelOutcome.ok 1 [0, 1]),
      ("SVM", ModelOutcome.ok 0 [1, 0])] =
      2 * ckdVotes [("Random Forest", ModelOutcome.ok 1 [0, 1]),
        ("SVM", ModelOutcome.ok 0 [1, 0])] := by
    simp [totalModels, ckdVotes, predictions, processModel, List.max?]
  exact ⟨htie, (C2_majority_tie_break _).2 htie⟩

/-! ### Claim C3 -/

/-- C3 counterexample: aggregating over zero available models does not
surface any error state — `api_predict` returns an ordinary success
response ("no_ckd"). -/
theorem C3_counterexample :
    (api_predict []).status = "success" ∧
    (api_predict []).ensemble_result = "no_ckd" := by
  constructor
  · rfl
  · norm_num [api_predict, ensembleCkd, ckdVotes, totalModels, predictions]

/-- C3 amended: with zero models loaded, `api_predict` neither raises a
`NoModelsAvailableError` (no such state exists in the code) nor divides by
zero (the empty confidence average is guarded by the `50.0` default); it
returns an ordinary success response: verdict "no_ckd", ensemble
confidence 0.5, zero agreeing models. -/
theorem C3_amended :
    api_predict [] =
      { status := "success", preds := [], ensemble_result := "no_ckd",
        ensemble_confidence := 1/2, models_agree := 0 } := by
  norm_num [api_predict, ensembleCkd, ckdVotes, totalModels, predictions,
    confs, avgConf, pyRound, roundHalfEven]

/-! ### Claim C1 -/

/-- C1 counterexample: with one CKD-voting model and one model whose predict
call throws, the handler counts the failed model in the ensemble total with
the default prediction 0, so the verdict is "no_ckd" (1 vote of 2), whereas
excluding the failed model from both vote count and total, as claimed,
would give "ckd" (1 vote of 1). -/
theorem C1_counterexample :
    (api_predict [("Random Forest", ModelOutcome.ok 1 [0, 1]),
        ("SVM", ModelOutcome.err)]).ensemble_result = "no_ckd" ∧
    specEnsembleResult [("Random Forest", ModelOutcome.ok 1 [0, 1]),
        ("SVM", ModelOutcome.err)] = "ckd" := by
  constructor
  · norm_num [api_predict, ensembleCkd, ckdVotes, totalModels, predictions,
      processModel, List.max?]
  · norm_num [specEnsembleResult, specAvailableVotes]

/-- C1 amended: when a model's predict (or predict-probability) call throws,
the exception is caught and logged and the request still succeeds, and the
model contributes no confidence (its entry is `prediction 0, confidence
none`); but the model is not excluded from the aggregation: it stays in the
predictions dict as a default Not-CKD vote, and the ensemble total counts
every loaded model. -/
theorem C1_amended (ms : List (String × ModelOutcome)) (n : String)
    (h : (n, ModelOutcome.err) ∈ ms) :
    (api_predict ms).status = "success" ∧
    (n, (⟨0, none⟩ : PredEntry)) ∈ (api_predict ms).preds ∧
    totalModels ms = ms.length := by
  refine ⟨rfl, ?_, by simp [totalModels, predictions]⟩
  have hm := List.mem_map_of_mem (fun e => (e.1, processModel e.2)) h
  exact hm

/-- C1 witness: a single model whose predict call throws. -/
theorem C1_amended_witness :
    ("SVM", ModelOutcome.err) ∈ [("SVM", ModelOutcome.err)] ∧
    ((api_predict [("SVM", ModelOutcome.err)]).status = "success" ∧
      ("SVM", (⟨0, none⟩ : PredEntry)) ∈
        (api_predict [("SVM", ModelOutcome.err)]).preds ∧
      totalModels [("SVM", ModelOutcome.err)] = [("SVM", ModelOutcome.err)].length) :=
  ⟨by decide, C1_amended _ _ (by decide)⟩

/-! ### Claim C9 -/

/-- C9: the reported ensemble confidence follows the
average-of-individual-confidences rule (the second variant the spec
documents): whenever at least one model reported a confidence, the response
field equals the mean of the non-null per-model confidence percentages,
scaled to the 0–1 response format and rounded to four decimals. -/
theorem C9_confidence_rule (ms : List (String × ModelOutcome))
    (h : confs ms ≠ []) :
    (api_predict ms).ensemble_confidence = pyRound 4 (specAvgConfidence ms / 100) := by
  show pyRound 4 (avgConf ms / 100) = _
  unfold avgConf specAvgConfidence
  rw [if_neg h]

/-- C9 witness: one model with confidence 100 gives ensemble confidence
`round(100/100, 4)` computed by the average rule. -/
theorem C9_confidence_rule_witness :
    confs [("Naive Bayes", ModelOutcome.ok 1 [0, 1])] ≠ [] ∧
    (api_predict [("Naive Bayes", ModelOutcome.ok 1 [0, 1])]).ensemble_confidence =
      pyRound 4 (specAvgConfidence [("Naive Bayes", ModelOutcome.ok 1 [0, 1])] / 100) :=
  ⟨by simp [confs, predictions, processModel, List.max?],
   C9_confidence_rule _ (by simp [confs, predictions, processModel, List.max?])⟩

/-! ### Rounding bounds (for Claim C10) -/

/-- Lower bound: `roundHalfEven` never drops below an integer lower bound. -/
lemma roundHalfEven_ge {z : ℤ} {x : ℚ} (h : (z:ℚ) ≤ x) : z ≤ roundHalfEven x := by
  have hfl : z ≤ ⌊x⌋ := Int.le_floor.mpr h
  unfold roundHalfEven
  split
  · split
    · exact hfl
    · omega
  · rw [round_eq]
    have : z ≤ ⌊x + 1/2⌋ := Int.le_floor.mpr (by linarith)
    exact this

/-- Upper bound: `roundHalfEven` never exceeds an integer upper bound. -/
lemma roundHalfEven_le {z : ℤ} {x : ℚ} (h : x ≤ (z:ℚ)) : roundHalfEven x ≤ z := by
  unfold roundHalfEven
  split
  · rename_i htie
    have hx : x = (⌊x⌋ : ℚ) + 1/2 := by linarith [sub_eq_iff_eq_add.mp htie]
    have hlt : (⌊x⌋ : ℚ) < z := by linarith
    have hlt' : ⌊x⌋ < z := by exact_mod_cast hlt
    split <;> omega
  · rw [round_eq]
    have : (⌊x + 1/2⌋ : ℤ) ≤ ⌊(z:ℚ) + 1/2⌋ := Int.floor_le_floor (by linarith)
    have hz : ⌊(z:ℚ) + 1/2⌋ = z := by
      rw [add_comm, Int.floor_add_int]
      norm_num
    omega

/-- Bounds: `pyRound` keeps a value inside integer bounds. -/
lemma pyRound_bounds (n : ℕ) {lo hi : ℤ} {x : ℚ} (hlo : (lo:ℚ) ≤ x)
    (hhi : x ≤ (hi:ℚ)) : (lo:ℚ) ≤ pyRound n x ∧ pyRound n x ≤ (hi:ℚ) := by
  unfold pyRound
  have h10 : (0:ℚ) < 10 ^ n := by positivity
  constructor
  · rw [le_div_iff₀ h10]
    have hge : (lo * 10 ^ n : ℤ) ≤ roundHalfEven (x * 10 ^ n) := by
      apply roundHalfEven_ge
      push_cast
      exact mul_le_mul_of_nonneg_right hlo (le_of_lt h10)
    calc ((lo:ℚ)) * 10 ^ n = ((lo * 10 ^ n : ℤ) : ℚ) := by push_cast; ring
      _ ≤ (roundHalfEven (x * 10 ^ n) : ℚ) := by exact_mod_cast hge
  · rw [div_le_iff₀ h10]
    have hle : roundHalfEven (x * 10 ^ n) ≤ (hi * 10 ^ n : ℤ) := by
      apply roundHalfEven_le
      push_cast
      exact mul_le_mul_of_nonneg_right hhi (le_of_lt h10)
    calc (roundHalfEven (x * 10 ^ n) : ℚ) ≤ ((hi * 10 ^ n : ℤ) : ℚ) := by exact_mod_cast hle
      _ = (hi:ℚ) * 10 ^ n := by push_cast; ring

/-! ### Claim C10 -/

/-- C10: for a model returning a two-class probability vector summing to 1,
the reported confidence is `round(max(proba) * 100, 2)` and lies in
[50, 100]; a confidence below 50 cannot occur. -/
theorem C10_confidence_bounds (pred : ℤ) (p₀ p₁ : ℚ)
    (h₀ : 0 ≤ p₀) (h₁ : 0 ≤ p₁) (hs : p₀ + p₁ = 1) :
    (processModel (ModelOutcome.ok pred [p₀, p₁])).confidence =
      some (pyRound 2 (max p₀ p₁ * 100)) ∧
    (50:ℚ) ≤ pyRound 2 (max p₀ p₁ * 100) ∧ pyRound 2 (max p₀ p₁ * 100) ≤ 100 := by
  have hmax : ([p₀, p₁] : List ℚ).max? = some (max p₀ p₁) := by
    simp [List.max?]
  refine ⟨by simp [processModel, hmax], ?_⟩
  have hub : max p₀ p₁ ≤ 1 := max_le (by linarith) (by linarith)
  have hlb : (1:ℚ)/2 ≤ max p₀ p₁ := by
    rcases le_total p₀ p₁ with hc | hc
    · have : (1:ℚ)/2 ≤ p₁ := by linarith
      exact le_trans this (le_max_right _ _)
    · have : (1:ℚ)/2 ≤ p₀ := by linarith
      exact le_trans this (le_max_left _ _)
  have hb := @pyRound_bounds 2 50 100 (max p₀ p₁ * 100)
    (by push_cast; linarith) (by push_cast; linarith)
  exact_mod_cast hb

/-- C10 witness: probabilities (3/10, 7/10). -/
theorem C10_confidence_bounds_witness :
    (0:ℚ) ≤ 3/10 ∧ (0:ℚ) ≤ 7/10 ∧ (3/10 : ℚ) + 7/10 = 1 ∧
    ((processModel (ModelOutcome.ok 1 [3/10, 7/10])).confidence =
        some (pyRound 2 (max (3/10 : ℚ) (7/10) * 100)) ∧
      (50:ℚ) ≤ pyRound 2 (max (3/10 : ℚ) (7/10) * 100) ∧
      pyRound 2 (max (3/10 : ℚ) (7/10) * 100) ≤ 100) :=
  ⟨by norm_num, by norm_num, by norm_num,
   C10_confidence_bounds 1 (3/10) (7/10) (by norm_num) (by norm_num) (by norm_num)⟩

/-! ### Claim C4 -/

/-- C4 counterexample: with a persisted code table of classes "41", "44", "48" for a
high-cardinality column, the raw value `"44.0"` encodes to the default 0 —
the code performs no secondary lookup of the `"44"` form, which the claimed
strategy would find (code 1). -/
theorem C4_counterexample :
    encodeCat ["41", "44", "48"] (some (FormVal.vStr "44.0")) = 0 ∧
    specSecondaryLookupEncode ["41", "44", "48"] "44.0" = 1 ∧
    encodeCat ["41", "44", "48"] (some (FormVal.vStr "44.0")) ≠
      specSecondaryLookupEncode ["41", "44", "48"] "44.0" := by
  decide

/-- C4 amended: encoding a categorical value performs a single
case-insensitive lookup of the stripped lowercased string form, followed by
the fixed alias table; no "N"/"N.0" secondary form is tried. Every value
with no matching entry resolves to the default code 0 (and encoding is
total — it never raises). -/
theorem C4_amended (classes : List String) (value : Option FormVal)
    (h1 : classesLowerGet classes (encodeCatKey value) = none)
    (h2 : aliasMap.find? (fun p => p.2.contains (encodeCatKey value) &&
        (classesLowerGet classes p.1).isSome) = none) :
    encodeCat classes value = 0 := by
  unfold encodeCat
  simp only []
  rw [h1, h2]

/-- C4 witness: the unseen category string "44.0" resolves to 0. -/
theorem C4_amended_witness :
    classesLowerGet ["41", "44", "48"]
        (encodeCatKey (some (FormVal.vStr "44.0"))) = none ∧
    aliasMap.find? (fun p =>
        p.2.contains (encodeCatKey (some (FormVal.vStr "44.0"))) &&
        (classesLowerGet ["41", "44", "48"] p.1).isSome) = none ∧
    encodeCat ["41", "44", "48"] (some (FormVal.vStr "44.0")) = 0 :=
  ⟨by decide, by decide, C4_amended _ _ (by decide) (by decide)⟩

/-! ### Claim C5 -/

/-- C5 counterexample: a 2-D (samples × features) raw output with 20 feature
columns normalizes to a vector of length 20, not the feature count 24 — the
code trims excess but never zero-pads a shortfall. -/
theorem C5_counterexample :
    (normalizeShap (SHAPRaw.arr2 [List.replicate 20 1])).length ≠
      ALL_FEATURES.length ∧
    (normalizeShap (SHAPRaw.arr2 [List.replicate 20 1])).length = 20 := by
  decide

/-- C5 amended: for every raw output of the three known shapes the
normalizer yields a flat vector of length `min(values selected, 24)` —
excess beyond the 24 features is trimmed, while a shortfall keeps the
shorter length (no zero-padding occurs); when the selected slice carries
exactly one value per feature the length is exactly 24. -/
theorem C5_amended (sv : SHAPRaw) :
    (normalizeShap sv).length = min (selectVals sv).length ALL_FEATURES.length := by
  unfold normalizeShap
  rw [List.length_take, Nat.min_comm]

/-! ### Claim C6 -/

/-- Transitivity of `absGe`. -/
lemma absGe_trans (a b c : String × ℚ) (hab : absGe a b = true)
    (hbc : absGe b c = true) : absGe a c = true := by
  simp only [absGe, decide_eq_true_eq] at *
  exact le_trans hbc hab

/-- Totality of `absGe`. -/
lemma absGe_total (a b : String × ℚ) : (absGe a b || absGe b a) = true := by
  simp only [absGe, Bool.or_eq_true, decide_eq_true_eq]
  exact le_total |b.2| |a.2|

/-- The ranking step always returns a list sorted by `|value|` descending. -/
lemma sortExplanation_sorted (vals : List ℚ) :
    List.Pairwise (fun a b : String × ℚ => |b.2| ≤ |a.2|)
      (sortExplanation vals) := by
  have hs := List.sorted_mergeSort absGe_trans absGe_total (buildShapDict vals)
  refine hs.imp ?_
  intro a b hab
  simpa [absGe, decide_eq_true_eq] using hab

/-- The explanations loop run from any accumulator appends its results. -/
lemma explainAll_foldl (ms : List (String × Except String SHAPRaw))
    (acc : List (String × ExplEntry)) :
    ms.foldl (fun acc e =>
      match processEntry e with
      | some r => acc ++ [r]
      | none => acc) acc = acc ++ explainAll ms := by
  induction ms generalizing acc with
  | nil => simp [explainAll]
  | cons e t ih =>
      rw [explainAll, List.foldl_cons, List.foldl_cons, ih, ih]
      cases processEntry e <;> simp

/-- The explanations dict over a concatenation splits model by model. -/
lemma explainAll_append (l₁ l₂ : List (String × Except String SHAPRaw)) :
    explainAll (l₁ ++ l₂) = explainAll l₁ ++ explainAll l₂ := by
  rw [explainAll, List.foldl_append, explainAll_foldl, explainAll_foldl,
    List.nil_append]

/-- Every entry of the explanations dict comes from one model's loop body. -/
lemma mem_explainAll {r : String × ExplEntry}
    {ms : List (String × Except String SHAPRaw)} (hr : r ∈ explainAll ms) :
    ∃ e, e ∈ ms ∧ processEntry e = some r := by
  induction ms with
  | nil => simp [explainAll] at hr
  | cons e t ih =>
      rw [show e :: t = [e] ++ t from rfl, explainAll_append] at hr
      rcases List.mem_append.mp hr with hr' | hr'
      · refine ⟨e, List.mem_cons_self e t, ?_⟩
        cases hpe : processEntry e
        · rw [show explainAll [e] = [] from by simp [explainAll, hpe]] at hr'
          simp at hr'
        · rename_i val
          rw [show explainAll [e] = [val] from by simp [explainAll, hpe]] at hr'
          rw [List.mem_singleton.mp hr']
      · rcases ih hr' with ⟨e', he', hpe⟩
        exact ⟨e', List.mem_cons_of_mem e he', hpe⟩

/-- C6: every successful per-model explanation result in a response is an
ordered mapping sorted by absolute attribution descending — each adjacent
pair satisfies `|earlier| ≥ |later|`. -/
theorem C6_sorted_by_abs_desc (ms : List (String × Except String SHAPRaw))
    (n : String) (attribs : List (String × ℚ))
    (h : (n, ExplEntry.ok attribs) ∈ (api_explain ms).explanations) :
    List.Chain' (fun a b => |b.2| ≤ |a.2|) attribs := by
  rcases mem_explainAll h with ⟨⟨nm, exc⟩, _, hpe⟩
  unfold processEntry at hpe
  split at hpe
  · cases exc with
    | error msg => simp at hpe
    | ok sv =>
        simp only [Option.some.injEq, Prod.mk.injEq, ExplEntry.ok.injEq] at hpe
        rw [← hpe.2]
        exact (sortExplanation_sorted (normalizeShap sv)).chain'
  · exact absurd hpe (by simp)

/-- C6 witness: one tree model with raw attributions `[2, -3]`. -/
theorem C6_sorted_by_abs_desc_witness :
    ("Random Forest",
        ExplEntry.ok (sortExplanation (normalizeShap (SHAPRaw.arr2 [[2, -3]])))) ∈
      (api_explain [("Random Forest", Except.ok (SHAPRaw.arr2 [[2, -3]]))]).explanations ∧
    List.Chain' (fun a b => |b.2| ≤ |a.2|)
      (sortExplanation (normalizeShap (SHAPRaw.arr2 [[2, -3]]))) :=
  ⟨by simp [api_explain, explainAll, processEntry, hasExplainer, TREE_MODELS],
   C6_sorted_by_abs_desc [("Random Forest", Except.ok (SHAPRaw.arr2 [[2, -3]]))]
     "Random Forest" _
     (by simp [api_explain, explainAll, processEntry, hasExplainer, TREE_MODELS])⟩

/-! ### Claim C7 -/

/-- C7: an exception raised while computing one model's attribution is
caught at that model's level: the model's entry becomes the structured
error marker, every other model's explanation (before and after it) is
exactly what it would be without the failure, and the request still
returns a success response. -/
theorem C7_per_model_isolation (l₁ l₂ : List (String × Except String SHAPRaw))
    (n msg : String) (h : hasExplainer n = true) :
    api_explain (l₁ ++ (n, Except.error msg) :: l₂) =
      { status := "success",
        explanations := explainAll l₁ ++ (n, ExplEntry.err msg) :: explainAll l₂ } := by
  unfold api_explain
  rw [explainAll_append]
  have hmid : explainAll [(n, Except.error msg)] ++ explainAll l₂ =
      (n, ExplEntry.err msg) :: explainAll l₂ := by
    simp [explainAll, processEntry, h]
  have : (n, Except.error msg) :: l₂ = [(n, Except.error msg)] ++ l₂ :=
    rfl
  rw [this, explainAll_append, hmid]

/-- C7 witness: one succeeding tree model, one kernel model whose SHAP
computation raises. -/
theorem C7_per_model_isolation_witness :
    hasExplainer "SVM" = true ∧
    api_explain [("Random Forest", Except.ok (SHAPRaw.arr2 [[1]])),
        ("SVM", Except.error "boom")] =
      { status := "success",
        explanations :=
          explainAll [("Random Forest", Except.ok (SHAPRaw.arr2 [[1]]))] ++
            ("SVM", ExplEntry.err "boom") :: explainAll [] } :=
  ⟨by decide,
   C7_per_model_isolation [("Random Forest", Except.ok (SHAPRaw.arr2 [[1]]))]
     [] "SVM" "boom" (by decide)⟩

/-! ### Claim C8 -/

/-- Dict lookup is invariant under permutation of the entries when the
keys are distinct. -/
lemma lookup_eq_of_perm {α β : Type} [BEq α] [LawfulBEq α]
    {l₁ l₂ : List (α × β)} (h : l₁.Perm l₂) :
    (l₁.map Prod.fst).Nodup → ∀ k, l₁.lookup k = l₂.lookup k := by
  induction h with
  | nil => exact fun _ _ => rfl
  | cons x h' ih =>
      intro hnd k
      obtain ⟨a, b⟩ := x
      rw [List.map_cons, List.nodup_cons] at hnd
      simp only [List.lookup]
      cases hka : k == a
      · exact ih hnd.2 k
      · rfl
  | swap x y l =>
      intro hnd k
      obtain ⟨a₁, b₁⟩ := x
      obtain ⟨a₂, b₂⟩ := y
      rw [List.map_cons, List.map_cons, List.nodup_cons, List.nodup_cons] at hnd
      have hne : a₂ ≠ a₁ := by
        intro hh
        exact hnd.1 (by simp [hh])
      simp only [List.lookup]
      cases h₂ : k == a₂ <;> cases h₁ : k == a₁ <;> simp [h₁, h₂]
      exact absurd ((eq_of_beq h₂).symm.trans (eq_of_beq h₁)) hne
  | trans h₁ h₂ ih₁ ih₂ =>
      intro hnd k
      have hnd₂ := (h₁.map Prod.fst).nodup_iff.mp hnd
      exact (ih₁ hnd k).trans (ih₂ hnd₂ k)

/-- C8: two raw feature mappings with the same name/value pairs in different
key orders preprocess to the identical vector — encoding reads values by
feature name via `form_data.get`, never by position. -/
theorem C8_key_order_invariance (a : Artifacts) (fd₁ fd₂ : List (String × FormVal))
    (hperm : fd₁.Perm fd₂) (hnd : (fd₁.map Prod.fst).Nodup) :
    preprocess_features a fd₁ = preprocess_features a fd₂ := by
  have hl := lookup_eq_of_perm hperm hnd
  have hrow : buildRawRow a fd₁ = buildRawRow a fd₂ := by
    unfold buildRawRow
    refine List.map_congr_left ?_
    intro feat _
    rw [hl feat]
  unfold preprocess_features
  rw [hrow]

/-- C8 witness: the same two entries in both orders encode identically. -/
theorem C8_key_order_invariance_witness :
    ([("age", FormVal.vInt 50), ("htn", FormVal.vStr "yes")] : List (String × FormVal)).Perm
      [("htn", FormVal.vStr "yes"), ("age", FormVal.vInt 50)] ∧
    (([("age", FormVal.vInt 50), ("htn", FormVal.vStr "yes")] : List (String × FormVal)).map
      Prod.fst).Nodup ∧
    preprocess_features ⟨[("htn", ["no", "yes"])], none, none⟩
        [("age", FormVal.vInt 50), ("htn", FormVal.vStr "yes")] =
      preprocess_features ⟨[("htn", ["no", "yes"])], none, none⟩
        [("htn", FormVal.vStr "yes"), ("age", FormVal.vInt 50)] :=
  ⟨by decide, by decide,
   C8_key_order_invariance _ _ _ (by decide) (by decide)⟩

end NephroScan
